import Mathlib

/-!
Shallow embedding of the habit-tracker application (src/App.tsx) and proofs
about its local state and synchronization model: the domain reducer, the
local-store upserts, the persistence loader, the sync gateway stub, and the
derived-view calculators (completion rate, calendar tiers, streak).

Dates are kept as the strings the code compares with `===`; JS numbers that
only ever hold integer slider scores are `Nat`; the completion rates that the
code computes with `/` and `* 100` are `ℚ`.  The calendar `Date` value stored
in `currentMonth` is opaque to every claim and is modelled as `Int`.
-/

/-- `Habit` record (src/App.tsx lines 5-10). -/
structure Habit where
  id : String
  icon : String
  name : String
  active : Bool
deriving DecidableEq

/-- `DailyLog` record (src/App.tsx lines 12-16); logical key is `(date, habitId)`. -/
structure DailyLog where
  date : String
  habitId : String
  completed : Bool
deriving DecidableEq

/-- `MoodLog` record (src/App.tsx lines 18-22); logical key is `date`. -/
structure MoodLog where
  date : String
  moodScore : Nat
  motivationScore : Nat
deriving DecidableEq

/-- The four values of `AppState.currentView` (src/App.tsx line 28). -/
inductive View where
  | today
  | calendar
  | stats
  | settings
deriving DecidableEq

/-- `AppState` (src/App.tsx lines 24-33).  `currentMonth : Date` is opaque to
the reducer (stored, never inspected), modelled as `Int`. -/
structure AppState where
  habits : List Habit
  dailyLogs : List DailyLog
  moodLogs : List MoodLog
  currentView : View
  currentMonth : Int
  isLoading : Bool
  isSyncing : Bool
  error : Option String
deriving DecidableEq

/-- `Config` (src/App.tsx lines 35-38). -/
structure Config where
  spreadsheetId : String
  apiKey : String
deriving DecidableEq

/-- The reducer's `Action` union (src/App.tsx lines 314-322); named `AppAction`
here to avoid clashing with a library name. -/
inductive AppAction where
  | setLoading (b : Bool)
  | setSyncing (b : Bool)
  | setError (e : Option String)
  | setData (habits : List Habit) (dailyLogs : List DailyLog) (moodLogs : List MoodLog)
  | setView (v : View)
  | setMonth (m : Int)
  | toggleHabit (date : String) (habitId : String)
  | updateMood (log : MoodLog)
deriving DecidableEq

/-- The predicate `l.date === date && l.habitId === habitId` used by
`TOGGLE_HABIT` and by `updateDailyLog` (src/App.tsx lines 345, 347, 261). -/
def isKey (date habitId : String) (l : DailyLog) : Bool :=
  l.date == date && l.habitId == habitId

/-- The domain reducer (src/App.tsx lines 335-358).  `TOGGLE_HABIT` finds the
existing log for the key, negates it (defaulting to `true`), filters every
record for the key out, and pushes one fresh record; `UPDATE_MOOD` filters
every record for the payload's date out and pushes the payload. -/
def reducer (state : AppState) (action : AppAction) : AppState :=
  match action with
  | .setLoading b => { state with isLoading := b }
  | .setSyncing b => { state with isSyncing := b }
  | .setError e => { state with error := e }
  | .setData habits dailyLogs moodLogs =>
      { state with habits := habits, dailyLogs := dailyLogs, moodLogs := moodLogs,
                   isLoading := false }
  | .setView v => { state with currentView := v }
  | .setMonth m => { state with currentMonth := m }
  | .toggleHabit date habitId =>
      let existingLog := state.dailyLogs.find? (isKey date habitId)
      let completed := match existingLog with
        | some l => !l.completed
        | none => true
      let newLogs := state.dailyLogs.filter (fun l => !(isKey date habitId l))
      { state with dailyLogs := newLogs ++ [⟨date, habitId, completed⟩] }
  | .updateMood log =>
      let newMoods := state.moodLogs.filter (fun l => l.date != log.date)
      { state with moodLogs := newMoods ++ [log] }

/-- `n` successive dispatches of `TOGGLE_HABIT` for one `(date, habitId)` key. -/
def togglesN (state : AppState) (date habitId : String) : Nat → AppState
  | 0 => state
  | n + 1 => reducer (togglesN state date habitId n) (.toggleHabit date habitId)

-- Basic list facts used throughout (proved here by induction to keep the
-- development self-contained).

theorem find_eq_head_filter {α : Type} (p : α → Bool) (l : List α) :
    l.find? p = (l.filter p).head? := by
  induction l with
  | nil => rfl
  | cons a l ih =>
    by_cases h : p a
    · rw [List.find?_cons_of_pos _ h, List.filter_cons_of_pos h, List.head?_cons]
    · rw [List.find?_cons_of_neg _ (by simp [h]), List.filter_cons_of_neg (by simp [h]), ih]

theorem filter_not_self {α : Type} (p : α → Bool) (l : List α) :
    (l.filter (fun a => !(p a))).filter p = [] := by
  induction l with
  | nil => rfl
  | cons a l ih =>
    by_cases h : p a
    · rw [List.filter_cons_of_neg (by simp [h]), ih]
    · rw [List.filter_cons_of_pos (by simp [h]), List.filter_cons_of_neg (by simp [h]), ih]

/-- After one `TOGGLE_HABIT` dispatch the records for the toggled key collapse
to a single record whose `completed` flips the previous head (or starts `true`). -/
theorem toggle_filter (s : AppState) (date habitId : String) :
    (reducer s (.toggleHabit date habitId)).dailyLogs.filter (isKey date habitId) =
      [⟨date, habitId,
        match (s.dailyLogs.filter (isKey date habitId)).head? with
        | some l => !l.completed
        | none => true⟩] := by
  simp only [reducer]
  rw [List.filter_append, filter_not_self, List.nil_append, find_eq_head_filter,
    List.filter_cons_of_pos (by simp [isKey]), List.filter_nil]

/-- Parity of `n + 1` toggles flips the parity of `n` toggles. -/
theorem parity_succ (n : Nat) : decide ((n + 1) % 2 = 1) = !decide (n % 2 = 1) := by
  rcases Nat.mod_two_eq_zero_or_one n with h | h
  · have h1 : (n + 1) % 2 = 1 := by omega
    simp [h, h1]
  · have h1 : (n + 1) % 2 = 0 := by omega
    simp [h, h1]

/-- **C1.** For every `(date, habitId)` key, starting from a state with no
daily-log record for the key, a sequence of `n ≥ 1` `TOGGLE_HABIT` actions
leaves exactly one `DailyLog` record for the key, and its `completed` field is
the parity of `n`: `true` when `n` is odd (the first toggle yields `true`),
`false` when `n` is even. -/
theorem c1_toggle_parity (s : AppState) (date habitId : String) (n : Nat)
    (hinit : s.dailyLogs.filter (isKey date habitId) = []) (hn : 0 < n) :
    (togglesN s date habitId n).dailyLogs.filter (isKey date habitId) =
      [⟨date, habitId, decide (n % 2 = 1)⟩] := by
  induction n with
  | zero => exact absurd hn (by omega)
  | succ n ih =>
    rcases Nat.eq_zero_or_pos n with h0 | hpos
    · subst h0
      show (reducer (togglesN s date habitId 0) (.toggleHabit date habitId)).dailyLogs.filter
        (isKey date habitId) = _
      rw [show togglesN s date habitId 0 = s from rfl, toggle_filter, hinit]
      rfl
    · have hfilter := ih hpos
      show (reducer (togglesN s date habitId n) (.toggleHabit date habitId)).dailyLogs.filter
        (isKey date habitId) = _
      rw [toggle_filter, hfilter]
      simp [parity_succ]

/-- A concrete state with habit `h1` and no logs. -/
def testState : AppState :=
  { habits := [⟨"h1", "⏰", "Se lever à 06:00", true⟩]
    dailyLogs := []
    moodLogs := []
    currentView := .today
    currentMonth := 0
    isLoading := false
    isSyncing := false
    error := none }

/-- Witness for C1: three toggles of `("2026-01-01", "h1")` on an empty log
collection leave exactly one record, completed (3 is odd). -/
theorem c1_toggle_parity_witness :
    (togglesN testState "2026-01-01" "h1" 3).dailyLogs.filter (isKey "2026-01-01" "h1") =
      [⟨"2026-01-01", "h1", decide (3 % 2 = 1)⟩] :=
  c1_toggle_parity testState "2026-01-01" "h1" 3 (by rfl) (by omega)

/-- The local-store daily-log upsert of the sync hook (src/App.tsx lines
259-272): `findIndex` the first record matching the key and overwrite it in
place, else push a new record at the end.  Rendered as structural recursion:
replace the first match, else append. -/
def updateDailyLog (logs : List DailyLog) (date habitId : String) (completed : Bool) :
    List DailyLog :=
  match logs with
  | [] => [⟨date, habitId, completed⟩]
  | l :: rest =>
    if isKey date habitId l then ⟨date, habitId, completed⟩ :: rest
    else l :: updateDailyLog rest date habitId completed

/-- The local-store mood-log upsert (src/App.tsx lines 283-292): `findIndex`
the first record with the date and overwrite it in place, else push. -/
def updateMoodLog (logs : List MoodLog) (date : String) (moodScore motivationScore : Nat) :
    List MoodLog :=
  match logs with
  | [] => [⟨date, moodScore, motivationScore⟩]
  | l :: rest =>
    if l.date == date then ⟨date, moodScore, motivationScore⟩ :: rest
    else l :: updateMoodLog rest date moodScore motivationScore

/-- After `UPDATE_MOOD`, the records for the payload's date collapse to
exactly the payload. -/
theorem updateMood_filter (s : AppState) (log : MoodLog) :
    (reducer s (.updateMood log)).moodLogs.filter (fun l => l.date == log.date) = [log] := by
  simp only [reducer]
  have hnot : (fun l : MoodLog => l.date != log.date) =
      (fun l : MoodLog => !((fun x : MoodLog => x.date == log.date) l)) := rfl
  rw [List.filter_append, hnot, filter_not_self, List.nil_append,
    List.filter_cons_of_pos (by simp), List.filter_nil]

/-- **C2 counterexample.** The claim extends filter-then-push to the store
upserts, but `updateDailyLog` replaces only the first matching record in
place: on a collection already holding two records for `("d", "h")`, the
upsert leaves two records for that key, not exactly one. -/
theorem c2_counterexample :
    ((updateDailyLog [⟨"d", "h", false⟩, ⟨"d", "h", false⟩] "d" "h" true).filter
        (isKey "d" "h")).length = 2 ∧
      ¬ ((updateDailyLog [⟨"d", "h", false⟩, ⟨"d", "h", false⟩] "d" "h" true).filter
        (isKey "d" "h")).length = 1 := by
  constructor
  · rfl
  · intro h
    rw [show ((updateDailyLog [⟨"d", "h", false⟩, ⟨"d", "h", false⟩] "d" "h" true).filter
        (isKey "d" "h")).length = 2 from rfl] at h
    omega

/-- **C2 (amended).** The reducer actions `TOGGLE_HABIT` and `UPDATE_MOOD`
filter-then-push and so leave exactly one record for the touched key even when
the collection already held duplicates; the store upserts `updateDailyLog` and
`updateMoodLog` replace the first matching record in place (or append when
none matches), so they leave exactly one record for the key only when the
collection held at most one record for it beforehand. -/
theorem c2_one_per_key :
    (∀ (s : AppState) (date habitId : String),
      ((reducer s (.toggleHabit date habitId)).dailyLogs.filter (isKey date habitId)).length
        = 1) ∧
    (∀ (s : AppState) (log : MoodLog),
      ((reducer s (.updateMood log)).moodLogs.filter (fun l => l.date == log.date)).length
        = 1) ∧
    (∀ (logs : List DailyLog) (date habitId : String) (completed : Bool),
      (logs.filter (isKey date habitId)).length ≤ 1 →
      ((updateDailyLog logs date habitId completed).filter (isKey date habitId)).length = 1) ∧
    (∀ (logs : List MoodLog) (date : String) (moodScore motivationScore : Nat),
      (logs.filter (fun l => l.date == date)).length ≤ 1 →
      ((updateMoodLog logs date moodScore motivationScore).filter
        (fun l => l.date == date)).length = 1) := by
  refine ⟨?_, ?_, ?_, ?_⟩
  · intro s date habitId
    rw [toggle_filter]
    rfl
  · intro s log
    rw [updateMood_filter]
    rfl
  · intro logs date habitId completed
    have hnew : isKey date habitId ⟨date, habitId, completed⟩ = true := by simp [isKey]
    induction logs with
    | nil =>
      intro _
      show (List.filter (isKey date habitId) [⟨date, habitId, completed⟩]).length = 1
      rw [List.filter_cons_of_pos hnew, List.filter_nil]
      rfl
    | cons l rest ih =>
      intro hle
      by_cases hl : isKey date habitId l = true
      · rw [List.filter_cons_of_pos hl, List.length_cons] at hle
        have hrest : rest.filter (isKey date habitId) = [] :=
          List.length_eq_zero.mp (by omega)
        simp only [updateDailyLog, if_pos hl]
        rw [List.filter_cons_of_pos hnew, hrest]
        rfl
      · rw [List.filter_cons_of_neg hl] at hle
        simp only [updateDailyLog, if_neg hl]
        rw [List.filter_cons_of_neg hl]
        exact ih hle
  · intro logs date moodScore motivationScore
    have hnew : (fun l : MoodLog => l.date == date)
        (⟨date, moodScore, motivationScore⟩ : MoodLog) = true := by simp
    induction logs with
    | nil =>
      intro _
      show (List.filter (fun l : MoodLog => l.date == date)
        [⟨date, moodScore, motivationScore⟩]).length = 1
      rw [List.filter_cons_of_pos (p := fun l : MoodLog => l.date == date) hnew,
        List.filter_nil]
      rfl
    | cons l rest ih =>
      intro hle
      by_cases hl : (l.date == date) = true
      · rw [List.filter_cons_of_pos (p := fun l : MoodLog => l.date == date) hl,
          List.length_cons] at hle
        have hrest : rest.filter (fun l : MoodLog => l.date == date) = [] :=
          List.length_eq_zero.mp (by omega)
        simp only [updateMoodLog, if_pos hl]
        rw [List.filter_cons_of_pos (p := fun l : MoodLog => l.date == date) hnew, hrest]
        rfl
      · rw [List.filter_cons_of_neg (p := fun l : MoodLog => l.date == date) hl] at hle
        simp only [updateMoodLog, if_neg hl]
        rw [List.filter_cons_of_neg (p := fun l : MoodLog => l.date == date) hl]
        exact ih hle

/-- Witness for the amended C2 at concrete inputs: the daily-log upsert on an
empty collection yields exactly one record for the key. -/
theorem c2_one_per_key_witness :
    ((updateDailyLog [] "d" "h" true).filter (isKey "d" "h")).length = 1 :=
  c2_one_per_key.2.2.1 [] "d" "h" true (by simp)

/-- **C9.** `SET_LOADING`, `SET_SYNCING` and `SET_ERROR` change only their own
flag field and leave every other field of the state unchanged. -/
theorem c9_flag_frame (s : AppState) (b : Bool) (e : Option String) :
    ((reducer s (.setLoading b)).isLoading = b ∧
      (reducer s (.setLoading b)).habits = s.habits ∧
      (reducer s (.setLoading b)).dailyLogs = s.dailyLogs ∧
      (reducer s (.setLoading b)).moodLogs = s.moodLogs ∧
      (reducer s (.setLoading b)).currentView = s.currentView ∧
      (reducer s (.setLoading b)).currentMonth = s.currentMonth ∧
      (reducer s (.setLoading b)).isSyncing = s.isSyncing ∧
      (reducer s (.setLoading b)).error = s.error) ∧
    ((reducer s (.setSyncing b)).isSyncing = b ∧
      (reducer s (.setSyncing b)).habits = s.habits ∧
      (reducer s (.setSyncing b)).dailyLogs = s.dailyLogs ∧
      (reducer s (.setSyncing b)).moodLogs = s.moodLogs ∧
      (reducer s (.setSyncing b)).currentView = s.currentView ∧
      (reducer s (.setSyncing b)).currentMonth = s.currentMonth ∧
      (reducer s (.setSyncing b)).isLoading = s.isLoading ∧
      (reducer s (.setSyncing b)).error = s.error) ∧
    ((reducer s (.setError e)).error = e ∧
      (reducer s (.setError e)).habits = s.habits ∧
      (reducer s (.setError e)).dailyLogs = s.dailyLogs ∧
      (reducer s (.setError e)).moodLogs = s.moodLogs ∧
      (reducer s (.setError e)).currentView = s.currentView ∧
      (reducer s (.setError e)).currentMonth = s.currentMonth ∧
      (reducer s (.setError e)).isLoading = s.isLoading ∧
      (reducer s (.setError e)).isSyncing = s.isSyncing) :=
  ⟨⟨rfl, rfl, rfl, rfl, rfl, rfl, rfl, rfl⟩,
   ⟨rfl, rfl, rfl, rfl, rfl, rfl, rfl, rfl⟩,
   ⟨rfl, rfl, rfl, rfl, rfl, rfl, rfl, rfl⟩⟩

/-- The two slider kinds passed to `handleMoodChange` (src/App.tsx line 931). -/
inductive MoodKind where
  | mood
  | motivation
deriving DecidableEq

/-- The current mood record `handleMoodChange` reads (src/App.tsx line 933):
the stored record for today, else a default with both scores 5. -/
def curMood (state : AppState) (today : String) : MoodLog :=
  (state.moodLogs.find? (fun l => l.date == today)).getD ⟨today, 5, 5⟩

/-- Overwriting one score of a mood record, as the computed-property spread
`{ ...currentMood, [field]: val }` does (src/App.tsx line 934). -/
def writeMood (m : MoodLog) (k : MoodKind) (v : Nat) : MoodLog :=
  match k with
  | .mood => { m with moodScore := v }
  | .motivation => { m with motivationScore := v }

/-- `handleMoodChange` (src/App.tsx lines 931-938) as a state transformer:
read the current record (default 5/5), overwrite the changed score, and
dispatch `UPDATE_MOOD` to the reducer. -/
def handleMoodChange (state : AppState) (today : String) (kind : MoodKind) (val : Nat) :
    AppState :=
  reducer state (.updateMood (writeMood (curMood state today) kind val))

/-- A finite sequence of mood writes through the `setMood` interface. -/
def setMoodSeq (state : AppState) (today : String) : List (MoodKind × Nat) → AppState
  | [] => state
  | (k, v) :: rest => setMoodSeq (handleMoodChange state today k v) today rest

/-- Per-field fold of a write sequence over a starting record: each field ends
at the most recent value written to it, or its starting value. -/
def applyWrites (m : MoodLog) : List (MoodKind × Nat) → MoodLog
  | [] => m
  | (k, v) :: rest => applyWrites (writeMood m k v) rest

theorem curMood_date (s : AppState) (today : String) : (curMood s today).date = today := by
  unfold curMood
  cases hf : s.moodLogs.find? (fun l => l.date == today) with
  | none => rfl
  | some m =>
    have hm := List.find?_some hf
    show m.date = today
    exact eq_of_beq hm

theorem writeMood_date (m : MoodLog) (k : MoodKind) (v : Nat) :
    (writeMood m k v).date = m.date := by
  cases k <;> rfl

/-- One `setMood` write collapses the records for today to exactly the
written record. -/
theorem handleMood_filter (s : AppState) (today : String) (k : MoodKind) (v : Nat) :
    (handleMoodChange s today k v).moodLogs.filter (fun l => l.date == today) =
      [writeMood (curMood s today) k v] := by
  have hdate : (writeMood (curMood s today) k v).date = today := by
    rw [writeMood_date, curMood_date]
  have h := updateMood_filter s (writeMood (curMood s today) k v)
  rw [hdate] at h
  exact h

/-- After one `setMood` write, the current record read back is the record
just written. -/
theorem curMood_handle (s : AppState) (today : String) (k : MoodKind) (v : Nat) :
    curMood (handleMoodChange s today k v) today = writeMood (curMood s today) k v := by
  unfold curMood
  rw [find_eq_head_filter, handleMood_filter]
  rfl

theorem setMood_filter (today : String) (ws : List (MoodKind × Nat)) :
    ∀ s : AppState, ws ≠ [] →
      (setMoodSeq s today ws).moodLogs.filter (fun l => l.date == today) =
        [applyWrites (curMood s today) ws] := by
  induction ws with
  | nil => intro s h; exact absurd rfl h
  | cons kv rest ih =>
    intro s _
    obtain ⟨k, v⟩ := kv
    cases rest with
    | nil =>
      show (handleMoodChange s today k v).moodLogs.filter (fun l => l.date == today) = _
      rw [handleMood_filter]
      rfl
    | cons kv2 rest2 =>
      show (setMoodSeq (handleMoodChange s today k v) today (kv2 :: rest2)).moodLogs.filter
        (fun l => l.date == today) = _
      rw [ih (handleMoodChange s today k v) (by simp), curMood_handle]
      rfl

/-- **C3.** For every date, a nonempty sequence of mood writes through the
`setMood` interface leaves exactly one `MoodLog` record for that date, whose
fields are the per-field fold of the writes over the prior current record
(most recent write to each field wins; untouched fields keep their prior
current value); in particular a single write to `moodScore` alone stores
`⟨today, v, prior motivationScore⟩`. -/
theorem c3_mood_last_write (s : AppState) (today : String) (ws : List (MoodKind × Nat))
    (v : Nat) (hws : ws ≠ []) :
    (setMoodSeq s today ws).moodLogs.filter (fun l => l.date == today) =
        [applyWrites (curMood s today) ws] ∧
      (handleMoodChange s today .mood v).moodLogs.filter (fun l => l.date == today) =
        [⟨today, v, (curMood s today).motivationScore⟩] := by
  constructor
  · exact setMood_filter today ws s hws
  · rw [handleMood_filter]
    have : writeMood (curMood s today) .mood v =
        ⟨today, v, (curMood s today).motivationScore⟩ := by
      show ({ curMood s today with moodScore := v } : MoodLog) = _
      rw [show ({ curMood s today with moodScore := v } : MoodLog) =
        ⟨(curMood s today).date, v, (curMood s today).motivationScore⟩ from rfl, curMood_date]
    rw [this]

/-- Witness for C3: on a state with no mood logs, writing mood 7 then
motivation 3 stores exactly `⟨date, 7, 3⟩`, and a lone mood write of 7 keeps
the default motivation 5. -/
theorem c3_mood_last_write_witness :
    (setMoodSeq testState "2026-01-02"
        [(MoodKind.mood, 7), (MoodKind.motivation, 3)]).moodLogs.filter
        (fun l => l.date == "2026-01-02") =
      [applyWrites (curMood testState "2026-01-02")
        [(MoodKind.mood, 7), (MoodKind.motivation, 3)]] ∧
    (handleMoodChange testState "2026-01-02" .mood 7).moodLogs.filter
        (fun l => l.date == "2026-01-02") =
      [⟨"2026-01-02", 7, (curMood testState "2026-01-02").motivationScore⟩] :=
  c3_mood_last_write testState "2026-01-02" [(MoodKind.mood, 7), (MoodKind.motivation, 3)]
    7 (by simp)

/-- Completion rate for a date (src/App.tsx lines 528-532, and identically
lines 596-597): count of completed logs for the date over the habit count,
times 100; returns 0 when the habit catalog is empty instead of dividing by
zero. -/
def completionRate (habits : List Habit) (dailyLogs : List DailyLog) (date : String) : ℚ :=
  let todayLogs := dailyLogs.filter (fun l => l.date == date && l.completed)
  if habits.length = 0 then 0
  else ((todayLogs.length : ℚ) / (habits.length : ℚ)) * 100

/-- **C5 counterexample.** The rate is not bounded by 100 on every state: with
one habit and two (duplicate) completed logs for it on the same date, the rate
is 200. -/
theorem c5_counterexample :
    completionRate [⟨"h1", "⏰", "Se lever à 06:00", true⟩]
        [⟨"d", "h1", true⟩, ⟨"d", "h1", true⟩] "d" = 200 ∧
      ¬ completionRate [⟨"h1", "⏰", "Se lever à 06:00", true⟩]
        [⟨"d", "h1", true⟩, ⟨"d", "h1", true⟩] "d" ≤ 100 := by
  have h : completionRate [⟨"h1", "⏰", "Se lever à 06:00", true⟩]
      [⟨"d", "h1", true⟩, ⟨"d", "h1", true⟩] "d" = 200 := by
    show (if (1 : Nat) = 0 then (0 : ℚ) else ((2 : ℚ) / (1 : ℚ)) * 100) = 200
    norm_num
  refine ⟨h, ?_⟩
  rw [h]
  norm_num

/-- **C5 (amended).** The completion rate for a date equals (completed logs
for the date) / (habit count) · 100 when the catalog is nonempty, is 0 when
the catalog is empty (never NaN, never an exception: the function is total),
is always nonnegative, and is at most 100 whenever the number of completed
logs for the date does not exceed the habit count (which the at-most-one-log-
per-key invariant gives for catalogs covering the logged habit ids); duplicate
completed logs can push it above 100. -/
theorem c5_completion_rate (habits : List Habit) (dailyLogs : List DailyLog) (date : String) :
    (habits.length = 0 → completionRate habits dailyLogs date = 0) ∧
    (habits.length ≠ 0 → completionRate habits dailyLogs date =
      (((dailyLogs.filter (fun l => l.date == date && l.completed)).length : ℚ) /
        (habits.length : ℚ)) * 100) ∧
    0 ≤ completionRate habits dailyLogs date ∧
    ((dailyLogs.filter (fun l => l.date == date && l.completed)).length ≤ habits.length →
      completionRate habits dailyLogs date ≤ 100) := by
  refine ⟨?_, ?_, ?_, ?_⟩
  · intro h
    simp [completionRate, h]
  · intro h
    simp [completionRate, h]
  · by_cases h : habits.length = 0
    · simp [completionRate, h]
    · have hl : (0 : ℚ) < (habits.length : ℚ) := by
        exact_mod_cast Nat.pos_of_ne_zero h
      simp only [completionRate, if_neg h]
      positivity
  · intro hle
    by_cases h : habits.length = 0
    · simp [completionRate, h]
    · have hl : (0 : ℚ) < (habits.length : ℚ) := by
        exact_mod_cast Nat.pos_of_ne_zero h
      simp only [completionRate, if_neg h]
      have h1 : (((dailyLogs.filter (fun l => l.date == date && l.completed)).length : ℚ) /
          (habits.length : ℚ)) ≤ 1 := by
        rw [div_le_one hl]
        exact_mod_cast hle
      have h2 := mul_le_mul_of_nonneg_right h1 (by norm_num : (0 : ℚ) ≤ 100)
      simpa using h2

/-- Witness for the amended C5: one habit, one completed log, rate within
bounds and given by the formula. -/
theorem c5_completion_rate_witness :
    completionRate [⟨"h1", "⏰", "Se lever à 06:00", true⟩] [⟨"d", "h1", true⟩] "d" ≤ 100 :=
  (c5_completion_rate [⟨"h1", "⏰", "Se lever à 06:00", true⟩] [⟨"d", "h1", true⟩] "d").2.2.2
    (by decide)

/-- Calendar cell tier (src/App.tsx lines 624-629): `full` renders the
success color (rate ≥ 80), `high` the warning color (the spec's
"partial-high", rate ≥ 40), `low` the tertiary color (the spec's
"partial-low", rate > 0), `empty` the default background. -/
inductive Tier where
  | full
  | high
  | low
  | empty
deriving DecidableEq

/-- Calendar cell classification (src/App.tsx lines 624-629): cascading
thresholds on the day's completion rate. -/
def classifyRate (rate : ℚ) : Tier :=
  if rate ≥ 80 then .full
  else if rate ≥ 40 then .high
  else if rate > 0 then .low
  else .empty

/-- **C6.** Calendar cell classification is a pure function of the rate with
exactly these bands: rate ≥ 80 → full, 40 ≤ rate < 80 → "partial-high",
0 < rate < 40 → "partial-low", rate = 0 → empty; in particular 85 → full,
50 → "partial-high", 10 → "partial-low", 0 → empty. -/
theorem c6_calendar_tiers (rate : ℚ) :
    (80 ≤ rate → classifyRate rate = .full) ∧
    (40 ≤ rate → rate < 80 → classifyRate rate = .high) ∧
    (0 < rate → rate < 40 → classifyRate rate = .low) ∧
    (rate = 0 → classifyRate rate = .empty) ∧
    classifyRate 85 = .full ∧ classifyRate 50 = .high ∧
    classifyRate 10 = .low ∧ classifyRate 0 = .empty := by
  refine ⟨?_, ?_, ?_, ?_, ?_, ?_, ?_, ?_⟩
  · intro h
    simp [classifyRate, h]
  · intro h1 h2
    have hn : ¬ rate ≥ 80 := by linarith
    simp [classifyRate, hn, h1]
  · intro h1 h2
    have hn1 : ¬ rate ≥ 80 := by linarith
    have hn2 : ¬ rate ≥ 40 := by linarith
    simp [classifyRate, hn1, hn2, h1]
  · intro h
    subst h
    norm_num [classifyRate]
  · norm_num [classifyRate]
  · norm_num [classifyRate]
  · norm_num [classifyRate]
  · norm_num [classifyRate]

/-- Witness for C6: the theorem's first band applied at rate 85. -/
theorem c6_calendar_tiers_witness : classifyRate 85 = .full :=
  (c6_calendar_tiers 85).1 (by norm_num)

/-- `hasConfig` (src/App.tsx line 220): `!!config.apiKey &&
!!config.spreadsheetId` — JS string truthiness, i.e. both fields non-empty. -/
def hasConfig (c : Config) : Bool :=
  c.apiKey != "" && c.spreadsheetId != ""

/-- The record `fetchData` resolves with (src/App.tsx lines 229, 249, 253). -/
structure FetchResult where
  habits : List Habit
  dailyLogs : List DailyLog
  moodLogs : List MoodLog
deriving DecidableEq

/-- `fetchData` (src/App.tsx lines 222-257), modelled as its resolved value
paired with a flag recording whether any network request was issued.  The
unconfigured branch returns the local collections after a simulated timeout
and issues no request; in the configured branch the remote read is commented
out in this build, so it too only awaits a simulated delay and resolves with
the local collections, issuing no request. -/
def fetchData (c : Config) (localHabits : List Habit) (localDailyLogs : List DailyLog)
    (localMoodLogs : List MoodLog) : FetchResult × Bool :=
  if !(hasConfig c) then
    (⟨localHabits, localDailyLogs, localMoodLogs⟩, false)
  else
    (⟨localHabits, localDailyLogs, localMoodLogs⟩, false)

/-- **C7.** `isConfigured` is true iff both `spreadsheetId` and `apiKey` are
non-empty; when either is empty, `fetchData` resolves with exactly the current
local collections and issues no network request. -/
theorem c7_unconfigured_local (c : Config) (localHabits : List Habit)
    (localDailyLogs : List DailyLog) (localMoodLogs : List MoodLog) :
    (hasConfig c = true ↔ (c.apiKey ≠ "" ∧ c.spreadsheetId ≠ "")) ∧
    (hasConfig c = false →
      fetchData c localHabits localDailyLogs localMoodLogs =
        (⟨localHabits, localDailyLogs, localMoodLogs⟩, false)) := by
  constructor
  · simp [hasConfig]
  · intro h
    simp [fetchData, h]

/-- Witness for C7: a config with empty `apiKey` is unconfigured and
`fetchData` returns the local collections without network access. -/
theorem c7_unconfigured_local_witness :
    fetchData ⟨"sheet-1", ""⟩ [⟨"h1", "⏰", "Se lever à 06:00", true⟩] [] [] =
      (⟨[⟨"h1", "⏰", "Se lever à 06:00", true⟩], [], []⟩, false) :=
  (c7_unconfigured_local ⟨"sheet-1", ""⟩ [⟨"h1", "⏰", "Se lever à 06:00", true⟩] [] []).2
    (by rfl)

/-- **C10.** The value `fetchData` resolves with is independent of the
configuration: for any two configs and the same local collections it returns
exactly the local collections — in this build the configured branch performs
no remote read, so configuration influences only timing and flags, never the
returned data. -/
theorem c10_fetch_config_independent (c1 c2 : Config) (localHabits : List Habit)
    (localDailyLogs : List DailyLog) (localMoodLogs : List MoodLog) :
    (fetchData c1 localHabits localDailyLogs localMoodLogs).1 =
        (fetchData c2 localHabits localDailyLogs localMoodLogs).1 ∧
      (fetchData c1 localHabits localDailyLogs localMoodLogs).1 =
        ⟨localHabits, localDailyLogs, localMoodLogs⟩ := by
  constructor <;> simp [fetchData]

/-- The `useLocalStorage` initializer (src/App.tsx lines 171-179): `getItem`
models `window.localStorage.getItem` (`none` for an absent slot or a storage
failure), `parse` models `JSON.parse` (`none` when the text fails to parse —
in JS a thrown error swallowed by the `catch`).  A present but empty string is
falsy in JS, so `item ? JSON.parse(item) : initialValue` also falls back to
the default there (`JSON.parse("")` would throw anyway).  Total by
construction: no failure escapes. -/
def load {α : Type} (getItem : String → Option String) (parse : String → Option α)
    (key : String) (initialValue : α) : α :=
  match getItem key with
  | none => initialValue
  | some item => if item == "" then initialValue else (parse item).getD initialValue

/-- **C8.** `load(key, default)` never raises (it is a total function): it
returns the parsed stored value when one exists and parses, and the default
verbatim both when no value is stored and when the stored text fails to parse.
The hypothesis `parse "" = none` records that `JSON.parse` rejects the empty
string, so the JS falsiness shortcut on `""` agrees with parse failure. -/
theorem c8_load_total {α : Type} (getItem : String → Option String)
    (parse : String → Option α) (key : String) (initialValue : α)
    (hparse : parse "" = none) :
    (getItem key = none → load getItem parse key initialValue = initialValue) ∧
    (∀ s, getItem key = some s → parse s = none →
      load getItem parse key initialValue = initialValue) ∧
    (∀ s v, getItem key = some s → parse s = some v →
      load getItem parse key initialValue = v) := by
  refine ⟨?_, ?_, ?_⟩
  · intro h
    simp [load, h]
  · intro s hs hp
    by_cases he : (s == "") = true
    · simp [load, hs, he]
    · simp [load, hs, he, hp]
  · intro s v hs hp
    have he : ¬ (s == "") = true := by
      intro he
      rw [eq_of_beq he, hparse] at hp
      cases hp
    simp [load, hs, he, hp]

/-- A stored slot holding corrupted text, for exercising `load`. -/
def demoStore : String → Option String :=
  fun k => if k = "slot" then some "corrupt" else none

/-- A toy parse function accepting only the text `"7"`. -/
def demoParse : String → Option Nat :=
  fun s => if s = "7" then some 7 else none

/-- Witness for C8: corrupted stored text for the slot yields the provided
default, not an error. -/
theorem c8_load_total_witness : load demoStore demoParse "slot" 0 = 0 :=
  (c8_load_total demoStore demoParse "slot" 0 (by simp [demoParse])).2.1 "corrupt"
    (by simp [demoStore]) (by simp [demoParse])

/-- The per-day completion rate the streak loop computes (src/App.tsx lines
672-673): completed logs for the day's ISO date over the habit count (here
without the `* 100`), 0 when the catalog is empty. -/
def dayRate (habits : List Habit) (dailyLogs : List DailyLog) (iso : String) : ℚ :=
  let dayLogs := dailyLogs.filter (fun l => l.date == iso && l.completed)
  if habits.length > 0 then (dayLogs.length : ℚ) / (habits.length : ℚ) else 0

/-- The streak loop (src/App.tsx lines 666-676) as a recursion: `i` is the
loop counter (backward day offset, 0 = today), `fuel` the remaining
iterations of `for (let i = 0; i < 365; i++)`, `streak` the accumulator.
`iso` maps a backward day offset to its ISO date string, abstracting the
`toISODate(today - i days)` calendar arithmetic. -/
def streakAux (habits : List Habit) (dailyLogs : List DailyLog) (iso : Nat → String) :
    Nat → Nat → Nat → Nat
  | _, 0, streak => streak
  | i, fuel + 1, streak =>
    if dayRate habits dailyLogs (iso i) ≥ 1 then
      streakAux habits dailyLogs iso (i + 1) fuel (streak + 1)
    else if 0 < i then streak
    else streakAux habits dailyLogs iso (i + 1) fuel streak

/-- The current-streak calculator of `StatsView` (src/App.tsx lines 666-676). -/
def computeStreak (habits : List Habit) (dailyLogs : List DailyLog) (iso : Nat → String) :
    Nat :=
  streakAux habits dailyLogs iso 0 365 0

/-- Whether day offset `j` has a 100% completion rate. -/
def dayOk (habits : List Habit) (dailyLogs : List DailyLog) (iso : Nat → String)
    (j : Nat) : Bool :=
  decide (dayRate habits dailyLogs (iso j) ≥ 1)

/-- From any non-today offset on, the loop counts exactly the consecutive run
of 100% days and stops at the first day below 100%. -/
theorem streakAux_tail (habits : List Habit) (dailyLogs : List DailyLog)
    (iso : Nat → String) :
    ∀ (fuel i streak : Nat), 0 < i →
      streakAux habits dailyLogs iso i fuel streak =
        streak + ((List.range' i fuel).takeWhile (dayOk habits dailyLogs iso)).length := by
  intro fuel
  induction fuel with
  | zero =>
    intro i streak _
    simp [streakAux]
  | succ fuel ih =>
    intro i streak hi
    by_cases h : dayRate habits dailyLogs (iso i) ≥ 1
    · have hok : dayOk habits dailyLogs iso i = true := by
        simp [dayOk, h]
      rw [show streakAux habits dailyLogs iso i (fuel + 1) streak =
          streakAux habits dailyLogs iso (i + 1) fuel (streak + 1) by
        simp only [streakAux, if_pos h]]
      rw [ih (i + 1) (streak + 1) (by omega), List.range'_succ,
        List.takeWhile_cons_of_pos hok, List.length_cons]
      omega
    · have hok : ¬ dayOk habits dailyLogs iso i = true := by
        simp [dayOk, h]
      rw [show streakAux habits dailyLogs iso i (fuel + 1) streak = streak by
        simp only [streakAux, if_neg h, if_pos hi]]
      rw [List.range'_succ, List.takeWhile_cons_of_neg hok]
      rfl

/-- The habits of the C4 scenario: A and B. -/
def scenarioHabits : List Habit :=
  [⟨"A", "🅰", "Habit A", true⟩, ⟨"B", "🅱", "Habit B", true⟩]

/-- The logs of the C4 scenario: both habits completed on day 0 (today) and
day -1, only A completed on day -2. -/
def scenarioLogs : List DailyLog :=
  [⟨"2026-10-12", "A", true⟩, ⟨"2026-10-12", "B", true⟩,
   ⟨"2026-10-11", "A", true⟩, ⟨"2026-10-11", "B", true⟩,
   ⟨"2026-10-10", "A", true⟩]

/-- The backward day-offset to ISO-date map of the C4 scenario. -/
def scenarioIso : Nat → String :=
  fun i =>
    if i = 0 then "2026-10-12"
    else if i = 1 then "2026-10-11"
    else if i = 2 then "2026-10-10"
    else "1970-01-01"


/-- One unfolding of the streak loop. -/
theorem streakAux_step (habits : List Habit) (dailyLogs : List DailyLog)
    (iso : Nat → String) (i fuel streak : Nat) :
    streakAux habits dailyLogs iso i (fuel + 1) streak =
      if dayRate habits dailyLogs (iso i) ≥ 1 then
        streakAux habits dailyLogs iso (i + 1) fuel (streak + 1)
      else if 0 < i then streak
      else streakAux habits dailyLogs iso (i + 1) fuel streak := rfl

/-- A day's rate is at least 1 exactly when the catalog is nonempty and the
completed-log count for the day reaches the habit count. -/
theorem dayOk_iff (habits : List Habit) (dailyLogs : List DailyLog) (iso : Nat → String)
    (j : Nat) :
    dayOk habits dailyLogs iso j = true ↔
      (0 < habits.length ∧ habits.length ≤
        (dailyLogs.filter (fun l => l.date == iso j && l.completed)).length) := by
  simp only [dayOk, dayRate]
  rw [decide_eq_true_iff]
  by_cases h : habits.length > 0
  · rw [if_pos h]
    have hc : (0 : ℚ) < (habits.length : ℚ) := by exact_mod_cast h
    rw [ge_iff_le, one_le_div hc]
    constructor
    · intro hle
      exact ⟨h, by exact_mod_cast hle⟩
    · rintro ⟨_, hle⟩
      exact_mod_cast hle
  · rw [if_neg h]
    constructor
    · intro hge
      norm_num at hge
    · rintro ⟨hpos, _⟩
      exact absurd hpos h

/-- **C4.** The streak calculator walks backward from today over at most 365
offsets: day 0 (today) contributes 1 exactly when its rate is 100% and never
terminates the walk even when incomplete, and the rest of the streak is the
length of the consecutive run of 100% days over offsets 1..364, stopping at
the first day below 100%.  In the scenario habits = [A, B], both completed on
day 0 and day -1, only A on day -2, the streak is 2. -/
theorem c4_streak :
    (∀ (habits : List Habit) (dailyLogs : List DailyLog) (iso : Nat → String),
      computeStreak habits dailyLogs iso =
        (if dayRate habits dailyLogs (iso 0) ≥ 1 then 1 else 0) +
          ((List.range' 1 364).takeWhile (dayOk habits dailyLogs iso)).length) ∧
    computeStreak scenarioHabits scenarioLogs scenarioIso = 2 := by
  have hchar : ∀ (habits : List Habit) (dailyLogs : List DailyLog) (iso : Nat → String),
      computeStreak habits dailyLogs iso =
        (if dayRate habits dailyLogs (iso 0) ≥ 1 then 1 else 0) +
          ((List.range' 1 364).takeWhile (dayOk habits dailyLogs iso)).length := by
    intro habits dailyLogs iso
    rw [show computeStreak habits dailyLogs iso =
        streakAux habits dailyLogs iso 0 (364 + 1) 0 from rfl, streakAux_step]
    by_cases h : dayRate habits dailyLogs (iso 0) ≥ 1
    · rw [if_pos h, if_pos h,
        streakAux_tail habits dailyLogs iso 364 1 1 (by omega)]
    · rw [if_neg h, if_neg h, if_neg (by omega : ¬ (0 : Nat) > 0),
        streakAux_tail habits dailyLogs iso 364 1 0 (by omega)]
  refine ⟨hchar, ?_⟩
  have hok0 : dayOk scenarioHabits scenarioLogs scenarioIso 0 = true :=
    (dayOk_iff scenarioHabits scenarioLogs scenarioIso 0).mpr (by decide)
  have hok1 : dayOk scenarioHabits scenarioLogs scenarioIso 1 = true :=
    (dayOk_iff scenarioHabits scenarioLogs scenarioIso 1).mpr (by decide)
  have hok2 : ¬ dayOk scenarioHabits scenarioLogs scenarioIso 2 = true := by
    intro hb
    have h2 := (dayOk_iff scenarioHabits scenarioLogs scenarioIso 2).mp hb
    revert h2
    decide
  rw [hchar scenarioHabits scenarioLogs scenarioIso,
    if_pos (of_decide_eq_true hok0),
    show List.range' 1 364 = 1 :: 2 :: List.range' 3 362 from rfl,
    List.takeWhile_cons_of_pos hok1, List.takeWhile_cons_of_neg hok2,
    List.length_cons, List.length_nil]
